import Mathlib

/-!
Shallow embedding of `src/process_log.py` (and its near-duplicate copy
`insight_testsuite/temp/src/process_log.py`) from josephdviviano/space-oddity.

Modelling conventions:
* Python `datetime` instants are modelled as `Int` seconds on an absolute
  timeline.  `calc_delta_time(t1, t2)` in the source computes
  `delta.days * 86400 + delta.seconds`, which for second-granularity
  datetimes is exactly the signed difference in seconds, hence `t2 - t1`.
* Python dicts are modelled as association lists in insertion order with
  unique keys (the dict invariant).  `dict[k] = v` is `aset`, `dict.pop(k)`
  is `aremove`, `dict[k]` lookup is `alookup`.
* `strftime('%d/%b/%Y:%H:%M:%S %z')` is injective on second-granularity
  instants, so the formatted-timestamp keys of the windowed output are
  modelled by the instants themselves.
* Python `int(s)` either returns an integer or raises; it is modelled by
  `pyInt? : String → Option Int` (optional sign followed by digits).
-/

/-- Association list lookup: first entry whose key matches, as in a Python
dict access (keys are unique in a dict). -/
def alookup {κ α : Type} [DecidableEq κ] : List (κ × α) → κ → Option α
  | [], _ => none
  | p :: t, k => if p.1 = k then some p.2 else alookup t k

/-- Association list assignment `d[k] = v`: replace the value of an existing
key, otherwise append the new binding (Python dicts keep insertion order of
first assignment). -/
def aset {κ α : Type} [DecidableEq κ] : List (κ × α) → κ → α → List (κ × α)
  | [], k, v => [(k, v)]
  | p :: t, k, v => if p.1 = k then (k, v) :: t else p :: aset t k v

/-- Association list removal `d.pop(k)`: drops the binding of `k`.  Written
as a filter; identical to removing the single binding because dict keys are
unique. -/
def aremove {κ α : Type} [DecidableEq κ] (l : List (κ × α)) (k : κ) : List (κ × α) :=
  l.filter (fun p => decide (p.1 ≠ k))

/-- Counter.update from process_log.py: `self.counts[key] += n`, creating
the key with value `n` on `KeyError`. -/
def Counter.update {κ : Type} [DecidableEq κ] : List (κ × Int) → κ → Int → List (κ × Int)
  | [], k, n => [(k, n)]
  | p :: t, k, n => if p.1 = k then (p.1, p.2 + n) :: t else p :: Counter.update t k n

/-- Ordering used by Counter.logger: Python sorts `counts.items()` by value
with `reverse=True`, i.e. descending by the second component.  Python sort is
stable, as is `List.insertionSort` with this relation. -/
def byValueDesc {κ : Type} (p q : κ × Int) : Prop := q.2 ≤ p.2

instance {κ : Type} : DecidableRel (@byValueDesc κ) := fun p q => by
  unfold byValueDesc; infer_instance

instance {κ : Type} : IsTotal (κ × Int) byValueDesc :=
  ⟨fun p q => le_total q.2 p.2⟩

instance {κ : Type} : IsTrans (κ × Int) byValueDesc :=
  ⟨fun _ _ _ h1 h2 => le_trans h2 h1⟩

/-- Counter.logger from process_log.py: clamp `n` to the table size, then to
at least 1, sort the items by value descending, and keep the first `n`.
The function returns the selected (key, value) pairs; rendering them to
lines is `Counter.loggerLines`. -/
def Counter.logger {κ : Type} [DecidableEq κ] (counts : List (κ × Int)) (n : Int) :
    List (κ × Int) :=
  let len : Int := counts.length
  let n1 := if n > len then len else n
  let n2 := if n1 ≤ 0 then 1 else n1
  (List.insertionSort byValueDesc counts).take n2.toNat

/-- The lines emitted by Counter.logger: `'{},{}'.format(key, value)` when
`write_vals` is true, `'{}'.format(key)` otherwise. -/
def Counter.loggerLines (counts : List (String × Int)) (n : Int) (write_vals : Bool) :
    List String :=
  (Counter.logger counts n).map
    (fun p => if write_vals then p.1 ++ "," ++ toString p.2 else p.1)

/-- calc_delta_time from process_log.py, on instants modelled as seconds:
`(t2 - t1).days * 86400 + (t2 - t1).seconds = t2 - t1`. -/
def calc_delta_time (t1 t2 : Int) : Int := t2 - t1

/-- Lookup `timedict[timeobj]` with a default that is never used when the
instant is a key of the dict. -/
def tlookup (timedict : List (Int × Int)) (t : Int) : Int :=
  (alookup timedict t).getD 0

/-- The inner `while` of calc_time_windows (src/src version): scan forward
over the instants after `t`, accumulating counts while the delta stays below
3600 seconds, stopping at the first instant an hour or more away or at the
end of the list. -/
def window_scan (lookup : Int → Int) (t : Int) : List Int → Int
  | [] => 0
  | u :: rest =>
      if calc_delta_time t u < 3600 then lookup u + window_scan lookup t rest else 0

/-- The `for` loop of calc_time_windows (src/src version): one output entry
per instant, in the order the Python loop inserts them (chronological);
each value starts from the instant's own count and adds the forward scan. -/
def windows_from (lookup : Int → Int) : List Int → List (Int × Int)
  | [] => []
  | t :: rest => (t, lookup t + window_scan lookup t rest) :: windows_from lookup rest

/-- calc_time_windows from src/src/process_log.py.  The keys are sorted
ascending; the function returns its dict via the `return` inside the loop,
which is only reached when the loop body runs, so the empty input falls off
the end of the function and yields Python `None`, modelled as `none`. -/
def calc_time_windows (timedict : List (Int × Int)) : Option (List (Int × Int)) :=
  match List.insertionSort (fun a b => a ≤ b) (timedict.map Prod.fst) with
  | [] => none
  | t :: rest => some (windows_from (tlookup timedict) (t :: rest))

/-- State of the Guardian class: `self.attempts` (per-host list of recent
login-failure instants), `self.blocked` (host ↦ instant the block began) and
the abuse sink `blocked.txt`, modelled as the list of lines written to it. -/
structure Guardian where
  attempts : List (String × List Int)
  blocked : List (String × Int)
  abuse_log : List String
deriving DecidableEq, Repr

/-- Guardian.update_attempts from process_log.py: append `t` to the host's
attempt list (creating it on `KeyError`), drop the first entry if the list
now has more than 3, and if it has exactly 3 entries spanning at most 20
seconds between positions 0 and 2, record the block `blocked[host] = t`. -/
def Guardian.update_attempts (g : Guardian) (host : String) (t : Int) : Guardian :=
  let h1 := ((alookup g.attempts host).getD []) ++ [t]
  let h2 := if 3 < h1.length then h1.drop 1 else h1
  let g1 : Guardian := { g with attempts := aset g.attempts host h2 }
  if h2.length = 3 ∧ h2.getD 2 0 - h2.getD 0 0 ≤ 20 then
    { g1 with blocked := aset g1.blocked host t }
  else g1

/-- Guardian.update_block from process_log.py: if the host is blocked and
the delta since the block start is at least 300 seconds, remove the block;
otherwise (including when the host is not blocked) do nothing. -/
def Guardian.update_block (g : Guardian) (host : String) (t : Int) : Guardian :=
  match alookup g.blocked host with
  | none => g
  | some bt =>
      if 300 ≤ calc_delta_time bt t then { g with blocked := aremove g.blocked host }
      else g

/-- Guardian.logger from process_log.py: if the host is currently blocked,
append the raw line to the abuse sink, else do nothing. -/
def Guardian.logger (g : Guardian) (host : String) (line : String) : Guardian :=
  match alookup g.blocked host with
  | none => g
  | some _ => { g with abuse_log := g.abuse_log ++ [line] }

/-- Python truthiness of the optional resource string: `if data.resource`
is false for `None` and for the empty string. -/
def truthy : Option String → Prop
  | none => False
  | some s => s ≠ ""

instance : DecidablePred truthy := fun o => by
  cases o <;> unfold truthy <;> infer_instance

/-- Feature 4 of main (src/src/process_log.py lines 287-294): for a `/login`
resource first run update_block, then, on a 401 reply, update_attempts;
finally Guardian.logger runs for every observation. -/
def guardian_feature (g : Guardian) (host : String) (timeobj : Int)
    (resource : Option String) (reply_code : Int) (line : String) : Guardian :=
  let g1 :=
    if resource = some "/login" then
      let g2 := Guardian.update_block g host timeobj
      if reply_code = 401 then Guardian.update_attempts g2 host timeobj else g2
    else g
  Guardian.logger g1 host line

/-- Python `int(s)`: an optional sign followed by at least one decimal
digit; anything else raises `ValueError`, modelled as `none`. -/
def digitsVal? : List Char → Nat → Option Nat
  | [], acc => some acc
  | c :: t, acc =>
      if '0' ≤ c ∧ c ≤ '9' then digitsVal? t (acc * 10 + (c.toNat - '0'.toNat))
      else none

def pyInt? (s : String) : Option Int :=
  match s.data with
  | [] => none
  | '-' :: t => if t = [] then none else (digitsVal? t 0).map (fun n => -(n : Int))
  | '+' :: t => if t = [] then none else (digitsVal? t 0).map (fun n => (n : Int))
  | l => (digitsVal? l 0).map (fun n => (n : Int))

/-- The parsed fields of one log line as stored on a Request object. -/
structure Request where
  host : String
  timeobj : Int
  method : Option String
  resource : Option String
  protocol : Option String
  reply_code : Int
  reply_bytes : Int
deriving DecidableEq, Repr

/-- The raw material Request.__init__ works on, at the tokenizer boundary:
the leading host field, the parsed bracketed timestamp, the quoted request
segment when the quote regex matched, and the last two space-separated
tokens of the line (`line.split(' ')[-2]` and `[-1]`). -/
structure RawLine where
  host : String
  timeobj : Int
  request : Option String
  tok_code : String
  tok_bytes : String
  text : String
deriving DecidableEq, Repr

/-- Request.__init__ from src/src/process_log.py.  Method, resource and
protocol each degrade to `None` when their piece of the quoted request
segment is missing (the try/except blocks).  The status code is
`int(line.split(' ')[-2])` with no try/except, and the byte count is the
last token with `'-'` mapped to 0, again with no try/except: a non-numeric
token raises ValueError out of the constructor, modelled as `none` for the
whole line. -/
def Request.parse (l : RawLine) : Option Request :=
  let method := l.request.bind (fun r => (r.splitOn " ")[0]?)
  let resource := l.request.bind (fun r => (r.splitOn " ")[1]?)
  let protocol := l.request.bind (fun r => (r.splitOn " ")[2]?)
  match pyInt? l.tok_code with
  | none => none
  | some rc =>
      match (if l.tok_bytes = "-" then some 0 else pyInt? l.tok_bytes) with
      | none => none
      | some rb =>
          some { host := l.host, timeobj := l.timeobj, method := method,
                 resource := resource, protocol := protocol,
                 reply_code := rc, reply_bytes := rb }

/-- The mutable tables owned by main: the three Counter instances and the
Guardian. -/
structure MainState where
  visit_count : List (String × Int)
  data_used : List (String × Int)
  visit_time : List (Int × Int)
  guardian : Guardian
deriving DecidableEq, Repr

/-- The per-record routing of main (src/src/process_log.py lines 277-294):
feature 1 counts the host, feature 2 adds the reply bytes to the resource
counter only when `data.resource and data.reply_bytes` is truthy, feature 3
counts the instant, feature 4 is the guardian block/attempt/log sequence. -/
def route (st : MainState) (data : Request) (line : String) : MainState :=
  { visit_count := Counter.update st.visit_count data.host 1
    data_used :=
      if truthy data.resource ∧ data.reply_bytes ≠ 0 then
        Counter.update st.data_used (data.resource.getD "") data.reply_bytes
      else st.data_used
    visit_time := Counter.update st.visit_time data.timeobj 1
    guardian := guardian_feature st.guardian data.host data.timeobj
      data.resource data.reply_code line }

/-- The line-consuming loop of main: each available line is parsed by
Request.__init__ and routed.  A parse failure is an uncaught exception —
there is no try/except around `Request(line)` in main — so the process
terminates, modelled as `none`; no later line is processed. -/
def main_run : MainState → List RawLine → Option MainState
  | st, [] => some st
  | st, l :: ls =>
      match Request.parse l with
      | none => none
      | some data => main_run (route st data l.text) ls

/-- The initial state of main: all tables empty. -/
def init_state : MainState := ⟨[], [], [], ⟨[], [], []⟩⟩

/-- The inner `while` of calc_time_windows in the testsuite copy
(insight_testsuite/temp/src/process_log.py lines 270-276).  It continues
while the delta is at most 3600 (note: `<=`, unlike the `<` of the src/src
copy), and on running past the last index steps `j` back by one before
breaking.  `fuel` bounds the recursion; callers pass enough fuel that it is
never exhausted before the loop's own exit conditions fire. -/
def ts_while (lookup : Int → Int) (ordered : List Int) (endIdx : Nat) (t : Int) :
    Nat → Nat → Int → Nat × Int
  | 0, j, count => (j, count)
  | fuel + 1, j, count =>
      if calc_delta_time t (ordered.getD j 0) ≤ 3600 then
        let count1 := count + lookup (ordered.getD j 0)
        if j + 1 > endIdx then (j, count1)
        else ts_while lookup ordered endIdx t fuel (j + 1) count1
      else (j, count)

/-- The `for` loop of calc_time_windows in the testsuite copy (lines
237-281), carried state included: `last_i`, `last_j`, `last_count` from the
previous iteration.  On `i == end_idx` the entry is written and the dict is
returned; when `i == 0` or `last_j == end_idx` the deltas are forced to
(0, 1) so the expensive search runs; when the left and right window edges
step by the same delta the incremental shortcut
`last_count - timedict[ordered[last_i]] + timedict[ordered[last_j+1]]`
is used and `j` stays at `i+1`. -/
def ts_loop (lookup : Int → Int) (ordered : List Int) (endIdx : Nat) :
    List Int → Nat → Nat → Nat → Int → List (Int × Int)
  | [], _, _, _, _ => []
  | t :: rest, i, last_i, last_j, last_count =>
      let count0 := lookup t
      if i = endIdx then [(t, count0)]
      else
        let dI : Int :=
          if i = 0 ∨ last_j = endIdx then 0
          else calc_delta_time (ordered.getD last_i 0) t
        let dJ : Int :=
          if i = 0 ∨ last_j = endIdx then 1
          else calc_delta_time (ordered.getD last_j 0) (ordered.getD (last_j + 1) 0)
        let jc : Nat × Int :=
          if dI = dJ then
            (i + 1, last_count - lookup (ordered.getD last_i 0)
                      + lookup (ordered.getD (last_j + 1) 0))
          else ts_while lookup ordered endIdx t (endIdx + 1 - i) (i + 1) count0
        (t, jc.2) :: ts_loop lookup ordered endIdx rest (i + 1) i jc.1 jc.2

/-- calc_time_windows from insight_testsuite/temp/src/process_log.py: the
incremental two-pointer variant.  Like the src/src copy it returns `None`
(here `none`) on an empty input. -/
def calc_time_windows_ts (timedict : List (Int × Int)) : Option (List (Int × Int)) :=
  match List.insertionSort (fun a b => a ≤ b) (timedict.map Prod.fst) with
  | [] => none
  | t :: rest =>
      some (ts_loop (tlookup timedict) (t :: rest) rest.length (t :: rest) 0 0 0 0)


/-- The specification-side value of one window: the sum of the counts of
every input instant `u` with `u >= t` and `u - t < 3600`. -/
def win_spec (timedict : List (Int × Int)) (t : Int) : Int :=
  ((timedict.filter (fun q => decide (t ≤ q.1 ∧ q.1 - t < 3600))).map Prod.snd).sum

theorem windows_from_map_fst (lookup : Int → Int) :
    ∀ l : List Int, (windows_from lookup l).map Prod.fst = l
  | [] => rfl
  | t :: rest => by simp [windows_from, windows_from_map_fst lookup rest]

theorem window_scan_eq (lookup : Int → Int) (t : Int) :
    ∀ rest : List Int, rest.Sorted (· ≤ ·) →
      window_scan lookup t rest
        = ((rest.filter (fun u => decide (u - t < 3600))).map lookup).sum
  | [], _ => rfl
  | u :: rs, h => by
    rw [List.sorted_cons] at h
    obtain ⟨hu, hrs⟩ := h
    by_cases hlt : u - t < 3600
    · simp only [window_scan, calc_delta_time, List.filter_cons]
      rw [if_pos hlt, if_pos (by simpa using hlt)]
      simp [window_scan_eq lookup t rs hrs]
    · have hnil : rs.filter (fun v => decide (v - t < 3600)) = [] := by
        refine List.filter_eq_nil_iff.mpr (fun v hv => ?_)
        have : u ≤ v := hu v hv
        simp only [decide_eq_true_eq]
        omega
      simp only [window_scan, calc_delta_time, List.filter_cons]
      rw [if_neg hlt, if_neg (by simpa using hlt)]
      simp [hnil]

theorem windows_head_eq (lookup : Int → Int) (t : Int) (rest : List Int)
    (h : (t :: rest).Sorted (· ≤ ·)) :
    lookup t + window_scan lookup t rest
      = (((t :: rest).filter (fun u => decide (t ≤ u ∧ u - t < 3600))).map lookup).sum := by
  rw [List.sorted_cons] at h
  obtain ⟨ht, hrest⟩ := h
  have hfc : rest.filter (fun u => decide (t ≤ u ∧ u - t < 3600))
      = rest.filter (fun u => decide (u - t < 3600)) := by
    refine List.filter_congr (fun u hu => ?_)
    have : t ≤ u := ht u hu
    simp only [decide_eq_true_eq, decide_eq_decide]
    omega
  simp only [List.filter_cons]
  rw [if_pos (by simp)]
  simp only [List.map_cons, List.sum_cons, hfc]
  rw [window_scan_eq lookup t rest hrest]

theorem windows_from_values (lookup : Int → Int) :
    ∀ l : List Int, l.Sorted (· ≤ ·) → l.Nodup →
      ∀ p ∈ windows_from lookup l,
        p.2 = ((l.filter (fun u => decide (p.1 ≤ u ∧ u - p.1 < 3600))).map lookup).sum
  | [], _, _ => by simp [windows_from]
  | t :: rs, hsort, hnd => by
    intro p hp
    have hs := hsort
    rw [List.sorted_cons] at hs
    obtain ⟨ht, hrs⟩ := hs
    rw [List.nodup_cons] at hnd
    obtain ⟨htm, hndrs⟩ := hnd
    simp only [windows_from, List.mem_cons] at hp
    rcases hp with hp | hp
    · subst hp
      exact windows_head_eq lookup t rs hsort
    · have hmem : p.1 ∈ rs := by
        have : p.1 ∈ (windows_from lookup rs).map Prod.fst := List.mem_map_of_mem Prod.fst hp
        rwa [windows_from_map_fst] at this
      have hlt : t < p.1 := by
        rcases lt_or_eq_of_le (ht p.1 hmem) with h | h
        · exact h
        · exact absurd (h ▸ hmem) htm
      have := windows_from_values lookup rs hrs hndrs p hp
      rw [this]
      simp only [List.filter_cons]
      rw [if_neg (by simp; omega)]

theorem sum_lookup_filter (P : Int → Bool) :
    ∀ timedict : List (Int × Int), (timedict.map Prod.fst).Nodup →
      (((timedict.map Prod.fst).filter P).map (tlookup timedict)).sum
        = ((timedict.filter (fun q => P q.1)).map Prod.snd).sum
  | [], _ => rfl
  | (k, v) :: rest, hnd => by
    rw [List.map_cons, List.nodup_cons] at hnd
    obtain ⟨hk, hndr⟩ := hnd
    have hcong : ((rest.map Prod.fst).filter P).map (tlookup ((k, v) :: rest))
        = ((rest.map Prod.fst).filter P).map (tlookup rest) := by
      refine List.map_congr_left (fun u hu => ?_)
      have hur : u ∈ rest.map Prod.fst := List.mem_of_mem_filter hu
      have hne : ¬ (k = u) := fun h => hk (h ▸ hur)
      simp [tlookup, alookup, hne]
    have hself : tlookup ((k, v) :: rest) k = v := by simp [tlookup, alookup]
    by_cases hPk : P k
    · simp only [List.map_cons, List.filter_cons, hPk, if_pos, List.sum_cons]
      rw [hself, hcong, sum_lookup_filter P rest hndr]
    · simp only [List.map_cons, List.filter_cons, hPk]
      rw [if_neg (by simp [hPk]), hcong, sum_lookup_filter P rest hndr]
      simp [hPk]

/-- C1: for every non-empty bucket map with distinct instants,
calc_time_windows returns one output entry per distinct input instant, with
the entries produced in chronological order (the output keys are a sorted
permutation of the input instants), and the value for an instant `t` is the
sum of the counts of every input instant `u` with `u >= t` and
`u - t < 3600` seconds. -/
theorem c1_calc_time_windows_correct (timedict : List (Int × Int))
    (hne : timedict ≠ []) (hnd : (timedict.map Prod.fst).Nodup) :
    ∃ out, calc_time_windows timedict = some out
      ∧ (out.map Prod.fst).Perm (timedict.map Prod.fst)
      ∧ (out.map Prod.fst).Sorted (· ≤ ·)
      ∧ ∀ p ∈ out, p.2 = win_spec timedict p.1 := by
  have hkeys : timedict.map Prod.fst ≠ [] := by
    intro h
    exact hne (List.map_eq_nil_iff.mp h)
  set sorted := List.insertionSort (fun a b => a ≤ b) (timedict.map Prod.fst) with hs
  have hperm : sorted.Perm (timedict.map Prod.fst) := List.perm_insertionSort _ _
  have hsorted : sorted.Sorted (· ≤ ·) := List.sorted_insertionSort _ _
  have hnds : sorted.Nodup := hperm.nodup_iff.mpr hnd
  have hsne : sorted ≠ [] := by
    intro h
    apply hkeys
    have hlen := hperm.length_eq
    rw [h] at hlen
    exact List.length_eq_zero.mp hlen.symm
  obtain ⟨t, rest, hsrt⟩ : ∃ t rest, sorted = t :: rest := by
    cases h : sorted with
    | nil => exact absurd h hsne
    | cons a l => exact ⟨a, l, rfl⟩
  refine ⟨windows_from (tlookup timedict) sorted, ?_, ?_, ?_, ?_⟩
  · unfold calc_time_windows
    rw [← hs, hsrt]
  · rw [windows_from_map_fst]
    exact hperm
  · rw [windows_from_map_fst]
    exact hsorted
  · intro p hp
    have hval := windows_from_values (tlookup timedict) sorted hsorted hnds p hp
    rw [hval]
    have hp2 : ((sorted.filter (fun u => decide (p.1 ≤ u ∧ u - p.1 < 3600))).map
        (tlookup timedict)).Perm
        (((timedict.map Prod.fst).filter (fun u => decide (p.1 ≤ u ∧ u - p.1 < 3600))).map
        (tlookup timedict)) :=
      (hperm.filter _).map _
    rw [hp2.sum_eq, sum_lookup_filter _ timedict hnd]
    rfl

/-- Witness for C1 at the concrete bucket map {0:3, 10:5, 3601:2}. -/
theorem c1_calc_time_windows_correct_witness :
    (([((0:Int),(3:Int)), (10,5), (3601,2)] : List (Int × Int)) ≠ [])
    ∧ (([((0:Int),(3:Int)), (10,5), (3601,2)].map Prod.fst).Nodup)
    ∧ (∃ out, calc_time_windows [(0,3), (10,5), (3601,2)] = some out
        ∧ (out.map Prod.fst).Perm ([(0,3), (10,5), (3601,2)].map Prod.fst)
        ∧ (out.map Prod.fst).Sorted (· ≤ ·)
        ∧ ∀ p ∈ out, p.2 = win_spec [(0,3), (10,5), (3601,2)] p.1) :=
  ⟨by decide, by decide,
    c1_calc_time_windows_correct [(0,3), (10,5), (3601,2)] (by decide) (by decide)⟩

/-- C5 counterexample: on the bucket map {t1:3, t2:5, t3:2} with t1 = 0,
t2 = t1+10, t3 = t1+3601, the windowed value calc_time_windows produces for
t2 is not 5 (t3 is only 3591 seconds after t2, so its count is included). -/
theorem c5_counterexample :
    alookup ((calc_time_windows [(0,3), (10,5), (3601,2)]).getD []) 10 ≠ some 5 := by
  decide

/-- C5 amended: on the bucket map {t1:3, t2:5, t3:2} with t1 = 0, t2 = t1+10,
t3 = t1+3601, calc_time_windows assigns 8 to t1 (t2 included, t3 excluded),
7 to t2 (t3 is 3591 < 3600 seconds ahead, hence included) and 2 to t3. -/
theorem c5_amended_window_values :
    calc_time_windows [(0,3), (10,5), (3601,2)] = some [(0,8), (10,7), (3601,2)] := by
  decide

/-- C10: on the empty bucket map the loop body of calc_time_windows never
runs, so the `return` statement is never reached and the function yields
Python `None` (`none`), not an empty map; the caller in main assigns this
non-mapping value to the hourly counter's table. -/
theorem c10_empty_bucket_map_returns_none :
    calc_time_windows [] = none ∧ calc_time_windows [] ≠ some [] := by
  exact ⟨by decide, by decide⟩

/-- C2 (code bug): the incremental two-pointer calc_time_windows of the
testsuite copy does not reproduce the sums of the naive src/src version.
On {0:1, 3600:1} the naive version (strict `< 3600` bound) gives 1 for the
window at 0 while the incremental version (`<= 3600` bound) gives 2; on
{0:1, 1:1, 4000:1, 4001:5, 10000:1} the incremental fast path reuses a stale
right edge and credits the window at instant 1 with the count of instant
4001, 4000 seconds away, giving 6 where the naive version gives 1. -/
theorem c2_incremental_variant_diverges :
    calc_time_windows [(0,1), (3600,1)] = some [(0,1), (3600,1)]
    ∧ calc_time_windows_ts [(0,1), (3600,1)] = some [(0,2), (3600,1)]
    ∧ calc_time_windows [(0,1), (1,1), (4000,1), (4001,5), (10000,1)]
        = some [(0,2), (1,1), (4000,6), (4001,5), (10000,1)]
    ∧ calc_time_windows_ts [(0,1), (1,1), (4000,1), (4001,5), (10000,1)]
        = some [(0,2), (1,6), (4000,6), (4001,5), (10000,1)] :=
  ⟨by decide, by decide, by decide, by decide⟩

/-- Folding a sequence of Counter.update calls over the empty counter, in
order, as main does one call per routed record. -/
def apply_updates {κ : Type} [DecidableEq κ] (ops : List (κ × Int)) : List (κ × Int) :=
  ops.foldl (fun c p => Counter.update c p.1 p.2) []

/-- The running total the counter stores for a key (0 if the key is
absent). -/
def Counter.total {κ : Type} [DecidableEq κ] (counts : List (κ × Int)) (k : κ) : Int :=
  (alookup counts k).getD 0

theorem total_update {κ : Type} [DecidableEq κ] :
    ∀ (c : List (κ × Int)) (k1 : κ) (n : Int) (k : κ),
      Counter.total (Counter.update c k1 n) k
        = Counter.total c k + (if k1 = k then n else 0)
  | [], k1, n, k => by
    by_cases h : k1 = k <;> simp [Counter.update, Counter.total, alookup, h]
  | (k0, v) :: t, k1, n, k => by
    by_cases h0 : k0 = k1
    · subst h0
      by_cases hk : k0 = k <;>
        simp [Counter.update, Counter.total, alookup, hk]
    · by_cases hk : k0 = k
      · subst hk
        have : ¬ (k1 = k0) := fun h => h0 h.symm
        simp [Counter.update, Counter.total, alookup, h0, this]
      · simp only [Counter.update, if_neg h0]
        simp only [Counter.total, alookup, if_neg hk]
        exact total_update t k1 n k

theorem total_foldl {κ : Type} [DecidableEq κ] :
    ∀ (ops : List (κ × Int)) (c : List (κ × Int)) (k : κ),
      Counter.total (ops.foldl (fun c p => Counter.update c p.1 p.2) c) k
        = Counter.total c k
          + ((ops.filter (fun p => decide (p.1 = k))).map Prod.snd).sum
  | [], c, k => by simp
  | p :: t, c, k => by
    simp only [List.foldl_cons, List.filter_cons]
    rw [total_foldl t _ k, total_update]
    by_cases h : p.1 = k <;> (simp [h]; try ring)

/-- C7: starting from the empty counter, the final total stored for a key
equals the sum of all deltas applied to that key, and the final total is the
same for any permutation of the update sequence. -/
theorem c7_counter_total_is_sum_of_deltas {κ : Type} [DecidableEq κ]
    (ops ops2 : List (κ × Int)) (k : κ) (hperm : ops.Perm ops2) :
    Counter.total (apply_updates ops) k
      = ((ops.filter (fun p => decide (p.1 = k))).map Prod.snd).sum
    ∧ Counter.total (apply_updates ops2) k = Counter.total (apply_updates ops) k := by
  have h1 : Counter.total (apply_updates ops) k
      = ((ops.filter (fun p => decide (p.1 = k))).map Prod.snd).sum := by
    unfold apply_updates
    rw [total_foldl]
    simp [Counter.total, alookup]
  have h2 : Counter.total (apply_updates ops2) k
      = ((ops2.filter (fun p => decide (p.1 = k))).map Prod.snd).sum := by
    unfold apply_updates
    rw [total_foldl]
    simp [Counter.total, alookup]
  refine ⟨h1, ?_⟩
  rw [h1, h2]
  exact (((hperm.filter (fun p => decide (p.1 = k))).map Prod.snd).sum_eq).symm

/-- Witness for C7: the updates a:2, b:3, a:5 give a the total 7, under both
orders. -/
theorem c7_counter_total_is_sum_of_deltas_witness :
    Counter.total (apply_updates [("a",2), ("b",3), ("a",5)]) "a"
      = (([("a",2), ("b",3), ("a",5)].filter
          (fun p => decide (p.1 = "a"))).map Prod.snd).sum
    ∧ Counter.total (apply_updates [("a",5), ("a",2), ("b",3)]) "a"
      = Counter.total (apply_updates [("a",2), ("b",3), ("a",5)]) "a" :=
  c7_counter_total_is_sum_of_deltas [("a",2), ("b",3), ("a",5)]
    [("a",5), ("a",2), ("b",3)] "a" (by decide)

theorem alookup_nodup_mem {κ α : Type} [DecidableEq κ] :
    ∀ l : List (κ × α), (l.map Prod.fst).Nodup → ∀ p ∈ l, alookup l p.1 = some p.2
  | [], _, p, hp => by simp at hp
  | q :: t, hnd, p, hp => by
    rw [List.map_cons, List.nodup_cons] at hnd
    obtain ⟨hq, hndt⟩ := hnd
    rcases List.mem_cons.mp hp with h | h
    · subst h
      simp [alookup]
    · have hne : ¬ (q.1 = p.1) := by
        intro he
        exact hq (he ▸ List.mem_map_of_mem Prod.fst h)
      simp [alookup, hne, alookup_nodup_mem t hndt p h]

/-- C6 amended: Counter.logger emits exactly min(n, distinct keys) entries
when n >= 1 and exactly min(1, distinct keys) entries when n <= 0 (the
clamp to 1 cannot produce an entry from an empty table), sorted by value
descending; the value emitted for a key is the key's current running total;
with write_vals = false the same keys are emitted in the same order without
values. -/
theorem c6_amended_logger_topn (counts : List (String × Int)) (n : Int)
    (hnd : (counts.map Prod.fst).Nodup) :
    ((1 ≤ n → (Counter.logger counts n).length = min n.toNat counts.length)
      ∧ (n ≤ 0 → (Counter.logger counts n).length = min 1 counts.length))
    ∧ (Counter.logger counts n).Sorted byValueDesc
    ∧ (∀ p ∈ Counter.logger counts n, alookup counts p.1 = some p.2)
    ∧ Counter.loggerLines counts n false = (Counter.logger counts n).map Prod.fst := by
  refine ⟨⟨?_, ?_⟩, ?_, ?_, ?_⟩
  · intro h1
    simp only [Counter.logger]
    rw [List.length_take, List.length_insertionSort]
    split_ifs <;> omega
  · intro h0
    simp only [Counter.logger]
    rw [List.length_take, List.length_insertionSort]
    split_ifs <;> omega
  · simp only [Counter.logger]
    exact List.Pairwise.sublist (List.take_sublist _ _)
      (List.sorted_insertionSort byValueDesc counts)
  · intro p hp
    simp only [Counter.logger] at hp
    have hp2 : p ∈ List.insertionSort byValueDesc counts := List.mem_of_mem_take hp
    have hp3 : p ∈ counts := (List.mem_insertionSort byValueDesc).mp hp2
    exact alookup_nodup_mem counts hnd p hp3
  · rfl

/-- Witness for C6 at counts {a:1, b:5} and n = 0: one entry, the largest. -/
theorem c6_amended_logger_topn_witness :
    ((1 ≤ (0:Int) → (Counter.logger [("a",(1:Int)), ("b",5)] 0).length
        = min (0:Int).toNat ([("a",(1:Int)), ("b",5)] : List (String × Int)).length)
      ∧ ((0:Int) ≤ 0 → (Counter.logger [("a",(1:Int)), ("b",5)] 0).length
        = min 1 ([("a",(1:Int)), ("b",5)] : List (String × Int)).length))
    ∧ (Counter.logger [("a",(1:Int)), ("b",5)] 0).Sorted byValueDesc
    ∧ (∀ p ∈ Counter.logger [("a",(1:Int)), ("b",5)] 0,
        alookup [("a",(1:Int)), ("b",5)] p.1 = some p.2)
    ∧ Counter.loggerLines [("a",1), ("b",5)] 0 false
        = (Counter.logger [("a",(1:Int)), ("b",5)] 0).map Prod.fst :=
  c6_amended_logger_topn [("a",1), ("b",5)] 0 (by decide)

/-- C6 counterexample: with an empty counter and n = 0, Counter.logger emits
no entry at all, not exactly one entry as the claim states for n <= 0. -/
theorem c6_counterexample :
    ¬ ((Counter.logger ([] : List (String × Int)) 0).length = 1) := by
  decide

theorem alookup_aremove_self {κ α : Type} [DecidableEq κ] :
    ∀ (l : List (κ × α)) (k : κ), alookup (aremove l k) k = none
  | [], _ => rfl
  | p :: t, k => by
    by_cases hpk : p.1 = k
    · simp only [aremove, List.filter_cons]
      rw [if_neg (by simp [hpk])]
      exact alookup_aremove_self t k
    · simp only [aremove, List.filter_cons]
      rw [if_pos (by simp [hpk])]
      simp only [alookup, if_neg hpk]
      exact alookup_aremove_self t k

/-- C3 amended: a blocked host is removed from the BlockTable exactly when a
subsequent `/login` observation (not an observation of any kind) for it has
`t - blockStart >= 300`; the unblock check runs before the blocked-request
logging, so a `/login` observation at exactly blockStart + 300 seconds that
does not itself record a new failure (status not 401) is not logged to the
abuse sink, while a non-`/login` observation never unblocks and is always
logged while the block is in place. -/
theorem c3_amended_unblock_semantics (g : Guardian) (host : String) (bt t : Int)
    (code : Int) (line : String)
    (hb : alookup g.blocked host = some bt) (hcode : code ≠ 401) :
    ((300 ≤ t - bt →
        alookup (guardian_feature g host t (some "/login") code line).blocked host = none
        ∧ (guardian_feature g host t (some "/login") code line).abuse_log = g.abuse_log)
      ∧ (t - bt < 300 →
        alookup (guardian_feature g host t (some "/login") code line).blocked host
            = some bt
        ∧ (guardian_feature g host t (some "/login") code line).abuse_log
            = g.abuse_log ++ [line]))
    ∧ ∀ res : Option String, res ≠ some "/login" →
        (guardian_feature g host t res code line).blocked = g.blocked
        ∧ (guardian_feature g host t res code line).abuse_log = g.abuse_log ++ [line] := by
  refine ⟨⟨?_, ?_⟩, ?_⟩
  · intro hge
    have hub : Guardian.update_block g host t
        = { g with blocked := aremove g.blocked host } := by
      simp only [Guardian.update_block, hb, calc_delta_time]
      rw [if_pos (by omega)]
    have hfeat : guardian_feature g host t (some "/login") code line
        = Guardian.logger { g with blocked := aremove g.blocked host } host line := by
      simp only [guardian_feature, if_true]
      rw [hub, if_neg hcode]
    rw [hfeat]
    simp [Guardian.logger, alookup_aremove_self]
  · intro hlt
    have hub : Guardian.update_block g host t = g := by
      simp only [Guardian.update_block, hb, calc_delta_time]
      rw [if_neg (by omega)]
    have hfeat : guardian_feature g host t (some "/login") code line
        = Guardian.logger g host line := by
      simp only [guardian_feature, if_true]
      rw [hub, if_neg hcode]
    rw [hfeat]
    simp [Guardian.logger, hb]
  · intro res hres
    have hfeat : guardian_feature g host t res code line = Guardian.logger g host line := by
      simp only [guardian_feature]
      rw [if_neg hres]
    rw [hfeat]
    simp [Guardian.logger, hb]

/-- A guardian state with host "h" blocked since instant 0, used for the C3
concrete instances. -/
def g_blocked_h : Guardian := ⟨[], [("h", 0)], []⟩

/-- C3 counterexample: a non-`/login` observation for blocked host "h" at
exactly blockStart + 300 seconds does not remove the host from the
BlockTable and is still appended to the abuse sink, contradicting the claim
that an observation of any kind at or after 300 seconds unblocks and that
the boundary observation is not logged. -/
theorem c3_counterexample :
    alookup (guardian_feature g_blocked_h "h" 300 none 200 "L").blocked "h" = some 0
    ∧ (guardian_feature g_blocked_h "h" 300 none 200 "L").abuse_log = ["L"] :=
  ⟨by decide, by decide⟩

/-- Witness for C3 at the blocked host "h", block start 0, observation at
the 300-second boundary with status 200. -/
theorem c3_amended_unblock_semantics_witness :
    ((300 ≤ (300:Int) - 0 →
        alookup (guardian_feature g_blocked_h "h" 300 (some "/login") 200 "L").blocked "h"
            = none
        ∧ (guardian_feature g_blocked_h "h" 300 (some "/login") 200 "L").abuse_log
            = g_blocked_h.abuse_log)
      ∧ ((300:Int) - 0 < 300 →
        alookup (guardian_feature g_blocked_h "h" 300 (some "/login") 200 "L").blocked "h"
            = some 0
        ∧ (guardian_feature g_blocked_h "h" 300 (some "/login") 200 "L").abuse_log
            = g_blocked_h.abuse_log ++ ["L"]))
    ∧ ∀ res : Option String, res ≠ some "/login" →
        (guardian_feature g_blocked_h "h" 300 res 200 "L").blocked = g_blocked_h.blocked
        ∧ (guardian_feature g_blocked_h "h" 300 res 200 "L").abuse_log
            = g_blocked_h.abuse_log ++ ["L"] :=
  c3_amended_unblock_semantics g_blocked_h "h" 0 300 200 "L" (by decide) (by decide)

theorem alookup_aset_self {κ α : Type} [DecidableEq κ] :
    ∀ (l : List (κ × α)) (k : κ) (v : α), alookup (aset l k v) k = some v
  | [], k, v => by simp [aset, alookup]
  | p :: tl, k, v => by
    by_cases hpk : p.1 = k
    · simp [aset, alookup, hpk]
    · simp [aset, alookup, hpk, alookup_aset_self tl k v]

/-- A Guardian with no attempt history, no blocks and an empty abuse sink,
as built by Guardian.__init__. -/
def guardian_empty : Guardian := ⟨[], [], []⟩

/-- C4: on a login-failure observation at instant t (at or after every
recorded attempt, histories being chronological), t is appended to the
host's attempt history which keeps the most recent 3 instants (length
min(old+1, 3), last element t, still chronological); if the resulting
history has exactly 3 entries spanning at most 20 seconds it records the
block with block-start t, and otherwise leaves the BlockTable unchanged.
In particular failures at t0, t0+5, t0+19 block with block-start t0+19 and
a fourth failure at t0+25 (window t0+5..t0+25, span exactly 20) re-triggers
with block-start t0+25. -/
theorem c4_guardian_block_trigger (g : Guardian) (host : String) (t : Int)
    (hlen : ((alookup g.attempts host).getD []).length ≤ 3)
    (hsort : ((alookup g.attempts host).getD []).Sorted (· ≤ ·))
    (hub : ∀ u ∈ (alookup g.attempts host).getD [], u ≤ t) :
    (alookup (Guardian.update_attempts g host t).attempts host
      = some ((((alookup g.attempts host).getD []) ++ [t]).drop
          (((alookup g.attempts host).getD []).length + 1 - 3))
    ∧ ((((alookup g.attempts host).getD []) ++ [t]).drop
          (((alookup g.attempts host).getD []).length + 1 - 3)).length
        = min (((alookup g.attempts host).getD []).length + 1) 3
    ∧ ((((alookup g.attempts host).getD []) ++ [t]).drop
          (((alookup g.attempts host).getD []).length + 1 - 3)).getLast? = some t
    ∧ ((((alookup g.attempts host).getD []) ++ [t]).drop
          (((alookup g.attempts host).getD []).length + 1 - 3)).Sorted (· ≤ ·)
    ∧ (((((alookup g.attempts host).getD []) ++ [t]).drop
          (((alookup g.attempts host).getD []).length + 1 - 3)).length = 3
        ∧ ((((alookup g.attempts host).getD []) ++ [t]).drop
            (((alookup g.attempts host).getD []).length + 1 - 3)).getD 2 0
          - ((((alookup g.attempts host).getD []) ++ [t]).drop
            (((alookup g.attempts host).getD []).length + 1 - 3)).getD 0 0 ≤ 20 →
        alookup (Guardian.update_attempts g host t).blocked host = some t)
    ∧ (¬ (((((alookup g.attempts host).getD []) ++ [t]).drop
          (((alookup g.attempts host).getD []).length + 1 - 3)).length = 3
        ∧ ((((alookup g.attempts host).getD []) ++ [t]).drop
            (((alookup g.attempts host).getD []).length + 1 - 3)).getD 2 0
          - ((((alookup g.attempts host).getD []) ++ [t]).drop
            (((alookup g.attempts host).getD []).length + 1 - 3)).getD 0 0 ≤ 20) →
        (Guardian.update_attempts g host t).blocked = g.blocked))
    ∧ ∀ t0 : Int,
        alookup (Guardian.update_attempts (Guardian.update_attempts
            (Guardian.update_attempts guardian_empty "H" t0) "H" (t0+5)) "H"
            (t0+19)).blocked "H" = some (t0+19)
        ∧ alookup (Guardian.update_attempts (Guardian.update_attempts
            (Guardian.update_attempts (Guardian.update_attempts guardian_empty "H" t0)
            "H" (t0+5)) "H" (t0+19)) "H" (t0+25)).blocked "H" = some (t0+25) := by
  constructor
  · set hist := (alookup g.attempts host).getD [] with hh
    set newhist := (hist ++ [t]).drop (hist.length + 1 - 3) with hnh
    have hcase : (if 3 < (hist ++ [t]).length then (hist ++ [t]).drop 1 else hist ++ [t])
        = newhist := by
      rw [hnh]
      rcases Nat.lt_or_ge hist.length 3 with hlt | hge
      · rw [if_neg (by simp; omega)]
        rw [show hist.length + 1 - 3 = 0 by omega, List.drop_zero]
      · have h3 : hist.length = 3 := le_antisymm hlen hge
        rw [if_pos (by simp [h3])]
        rw [show hist.length + 1 - 3 = 1 by omega]
    have hupd : Guardian.update_attempts g host t
        = (if newhist.length = 3 ∧ newhist.getD 2 0 - newhist.getD 0 0 ≤ 20 then
            { g with attempts := aset g.attempts host newhist,
                     blocked := aset g.blocked host t }
          else { g with attempts := aset g.attempts host newhist }) := by
      simp only [Guardian.update_attempts, ← hh]
      rw [hcase]
    have hlook : alookup (Guardian.update_attempts g host t).attempts host
        = some newhist := by
      rw [hupd]
      split_ifs <;> simp [alookup_aset_self]
    have hsapp : (hist ++ [t]).Sorted (· ≤ ·) := by
      rw [List.Sorted, List.pairwise_append]
      exact ⟨hsort, List.pairwise_singleton _ _, fun a ha b hb => by
        rw [List.mem_singleton] at hb
        exact hb ▸ hub a ha⟩
    refine ⟨hlook, ?_, ?_, ?_, ?_, ?_⟩
    · rw [hnh, List.length_drop]
      simp only [List.length_append, List.length_singleton]
      omega
    · rw [hnh, List.drop_append_of_le_length (by omega)]
      exact List.getLast?_concat _
    · rw [hnh]
      exact List.Pairwise.sublist (List.drop_sublist _ _) hsapp
    · intro htr
      rw [hupd, if_pos htr]
      simp [alookup_aset_self]
    · intro htr
      rw [hupd, if_neg htr]
  · intro t0
    have s1 : Guardian.update_attempts guardian_empty "H" t0 = ⟨[("H", [t0])], [], []⟩ := by
      simp [Guardian.update_attempts, alookup, aset, guardian_empty]
    have s2 : Guardian.update_attempts ⟨[("H", [t0])], [], []⟩ "H" (t0+5)
        = ⟨[("H", [t0, t0+5])], [], []⟩ := by
      simp [Guardian.update_attempts, alookup, aset]
    have s3 : Guardian.update_attempts ⟨[("H", [t0, t0+5])], [], []⟩ "H" (t0+19)
        = ⟨[("H", [t0, t0+5, t0+19])], [("H", t0+19)], []⟩ := by
      simp [Guardian.update_attempts, alookup, aset]
    have s4 : Guardian.update_attempts ⟨[("H", [t0, t0+5, t0+19])], [("H", t0+19)], []⟩
        "H" (t0+25) = ⟨[("H", [t0+5, t0+19, t0+25])], [("H", t0+25)], []⟩ := by
      simp [Guardian.update_attempts, alookup, aset]
    rw [s1, s2, s3]
    refine ⟨by simp [alookup], ?_⟩
    rw [s4]
    simp [alookup]

/-- Witness for C4 at the empty guardian and a first failure at instant 0:
the attempt history becomes the single instant 0. -/
theorem c4_guardian_block_trigger_witness :
    alookup (Guardian.update_attempts guardian_empty "H" 0).attempts "H" = some [0] := by
  have h := c4_guardian_block_trigger guardian_empty "H" 0 (by decide) (by decide)
    (by decide)
  simpa using h.1.1

theorem logger_attempts (g : Guardian) (host line : String) :
    (Guardian.logger g host line).attempts = g.attempts := by
  unfold Guardian.logger
  cases alookup g.blocked host <;> rfl

theorem logger_blocked (g : Guardian) (host line : String) :
    (Guardian.logger g host line).blocked = g.blocked := by
  unfold Guardian.logger
  cases alookup g.blocked host <;> rfl

/-- C8 amended: a line whose status-code token or byte-count token is
missing or non-numeric makes Request.__init__ raise an uncaught ValueError;
main has no try/except around the constructor, so the process terminates at
that line and no subsequent line is processed — the line is not skipped. -/
theorem c8_amended_parse_failure_terminates (st : MainState) (l : RawLine)
    (rest : List RawLine)
    (hbad : pyInt? l.tok_code = none
      ∨ (l.tok_bytes ≠ "-" ∧ pyInt? l.tok_bytes = none)) :
    Request.parse l = none ∧ main_run st (l :: rest) = none := by
  have hp : Request.parse l = none := by
    unfold Request.parse
    rcases hbad with h | h
    · rw [h]
    · obtain ⟨hne, hnone⟩ := h
      cases hc : pyInt? l.tok_code with
      | none => rfl
      | some rc => rw [if_neg hne, hnone]
  exact ⟨hp, by simp [main_run, hp]⟩

/-- A line with a non-numeric status-code token (Python would raise
ValueError on `int('abc')`). -/
def bad_line : RawLine :=
  ⟨"10.0.0.1", 0, some "GET /index.html HTTP/1.0", "abc", "100", "B"⟩

/-- A perfectly well-formed line following the bad one. -/
def good_line : RawLine :=
  ⟨"10.0.0.2", 1, some "GET /a HTTP/1.0", "200", "50", "G"⟩

/-- C8 counterexample: with a malformed status-code field on the first line
and a well-formed second line, the run terminates (`none`) instead of
skipping the bad line and processing the good one; the second conjunct shows
the second line on its own parses fine, so the termination is caused by the
first line. -/
theorem c8_counterexample :
    main_run init_state [bad_line, good_line] = none
    ∧ Request.parse good_line ≠ none :=
  ⟨by decide, by decide⟩

/-- Witness for C8 at the concrete malformed line. -/
theorem c8_amended_parse_failure_terminates_witness :
    Request.parse bad_line = none ∧ main_run init_state [bad_line] = none :=
  c8_amended_parse_failure_terminates init_state bad_line [] (Or.inl (by decide))

/-- C9 amended: with an absent (or empty, hence falsy) resource field the
resource-bandwidth counter and the guardian's attempt/block tables are
untouched while the record is still counted in the host and hourly
counters; with a truthy resource the bandwidth counter is updated by the
reply byte count only when that count is nonzero — src/src/process_log.py
guards feature 2 with `if data.resource and data.reply_bytes`, so a
zero-byte record (in particular a literal `-` byte field, which parses to
0) never updates the resource counter. -/
theorem c9_amended_resource_routing (st : MainState) (data : Request) (line : String) :
    (¬ truthy data.resource →
        (route st data line).data_used = st.data_used
        ∧ (route st data line).guardian.attempts = st.guardian.attempts
        ∧ (route st data line).guardian.blocked = st.guardian.blocked
        ∧ (route st data line).visit_count = Counter.update st.visit_count data.host 1
        ∧ (route st data line).visit_time = Counter.update st.visit_time data.timeobj 1)
    ∧ (truthy data.resource → data.reply_bytes ≠ 0 →
        (route st data line).data_used
          = Counter.update st.data_used (data.resource.getD "") data.reply_bytes)
    ∧ (data.reply_bytes = 0 → (route st data line).data_used = st.data_used)
    ∧ (∀ l2 : RawLine, l2.tok_bytes = "-" → pyInt? l2.tok_code = some 200 →
        ∃ r, Request.parse l2 = some r ∧ r.reply_bytes = 0) := by
  refine ⟨?_, ?_, ?_, ?_⟩
  · intro hnt
    have hne : data.resource ≠ some "/login" := by
      intro he
      rw [he] at hnt
      exact hnt (by simp [truthy])
    have hfeat : guardian_feature st.guardian data.host data.timeobj data.resource
        data.reply_code line = Guardian.logger st.guardian data.host line := by
      simp only [guardian_feature]
      rw [if_neg hne]
    refine ⟨?_, ?_, ?_, rfl, rfl⟩
    · show (if truthy data.resource ∧ data.reply_bytes ≠ 0 then _ else st.data_used)
        = st.data_used
      rw [if_neg (by intro hc; exact hnt hc.1)]
    · show (guardian_feature st.guardian data.host data.timeobj data.resource
        data.reply_code line).attempts = st.guardian.attempts
      rw [hfeat]
      exact logger_attempts _ _ _
    · show (guardian_feature st.guardian data.host data.timeobj data.resource
        data.reply_code line).blocked = st.guardian.blocked
      rw [hfeat]
      exact logger_blocked _ _ _
  · intro ht hb
    show (if truthy data.resource ∧ data.reply_bytes ≠ 0 then
        Counter.update st.data_used (data.resource.getD "") data.reply_bytes
      else st.data_used) = _
    rw [if_pos ⟨ht, hb⟩]
  · intro h0
    show (if truthy data.resource ∧ data.reply_bytes ≠ 0 then _ else st.data_used)
        = st.data_used
    rw [if_neg (by intro hc; exact hc.2 h0)]
  · intro l2 hdash hcode
    refine ⟨⟨l2.host, l2.timeobj,
        l2.request.bind (fun r => (r.splitOn " ")[0]?),
        l2.request.bind (fun r => (r.splitOn " ")[1]?),
        l2.request.bind (fun r => (r.splitOn " ")[2]?), 200, 0⟩, ?_, rfl⟩
    unfold Request.parse
    rw [hcode, if_pos hdash]

/-- A parsed record with a present resource and a zero byte count, as
produced from a line whose byte field is the literal `-`. -/
def req_zero_bytes : Request :=
  ⟨"10.0.0.1", 0, some "GET", some "/a", some "HTTP/1.0", 200, 0⟩

/-- C9 counterexample: routing a record with resource `/a` present and a
reply byte count of 0 (a `-` byte field) leaves the resource-bandwidth
counter empty, whereas updating it by the record's byte count, as the claim
states, would create the key `/a` with total 0. -/
theorem c9_counterexample :
    (route init_state req_zero_bytes "L").data_used = []
    ∧ Counter.update init_state.data_used "/a" (0:Int) = [("/a", 0)] :=
  ⟨by decide, by decide⟩

/-- A parsed record with a present resource and 7 reply bytes. -/
def req_seven_bytes : Request :=
  ⟨"10.0.0.1", 0, some "GET", some "/a", some "HTTP/1.0", 200, 7⟩

/-- Witness for C9: a record with resource `/a` and 7 bytes updates the
resource counter to total 7. -/
theorem c9_amended_resource_routing_witness :
    (route init_state req_seven_bytes "L").data_used = [("/a", 7)] := by
  have h := c9_amended_resource_routing init_state req_seven_bytes "L"
  rw [h.2.1 (by decide) (by decide)]
  decide
